import Mathlib

/-!
Shallow embedding of the virtual local APIC core (src/xen/arch/x86/hvm/vlapic.c)
and proofs of the specification claims about it.

Registers are modelled as natural numbers holding 32-bit values; the three
256-bit vector bitmaps (IRR, ISR, TMR) are modelled as boolean-valued
functions over vector indices.  External collaborators (viridian, vioapic,
dpci, vcpu kick, the posted-interrupt hook) appear as boolean capability
inputs and as output notification lists, exactly where the source consults or
calls them.
-/

set_option maxRecDepth 8000

namespace Vlapic

/-- Number of interrupt vectors (X86_IDT_VECTORS); the vector bitmaps are
256 bits wide, stored as eight 32-bit words. -/
def X86_IDT_VECTORS : Nat := 256

/-- Modelled from the spec: Xen's fls (find last set) on a machine word, a
builtin not under src/ — the 1-based index of the highest set bit, 0 for an
empty word. -/
def fls (x : Nat) : Nat := if x = 0 then 0 else Nat.log2 x + 1

/-- The scan loop of vlapic_find_highest_vector: work backwards through the
bitmap whose eight logical 32-bit words sit at array stride four (the APIC
register file places each bitmap word 16 bytes apart).  This is the loop
`while ( (word_offset != 0) && (word[(--word_offset)*4] == 0) ) continue;`
returning the final word_offset. -/
def fhvLoop (word : Nat → Nat) : Nat → Nat
  | 0 => 0
  | k + 1 => if word (k * 4) = 0 then fhvLoop word k else k

/-- vlapic_find_highest_vector (src/xen/arch/x86/hvm/vlapic.c:72-82): scan the
words of a 256-bit vector bitmap from the high end downward; return -1 when the
bitmap is empty, else the highest set bit index. -/
def vlapic_find_highest_vector (word : Nat → Nat) : Int :=
  let wo := fhvLoop word (X86_IDT_VECTORS / 32)
  (fls (word (wo * 4)) : Int) - 1 + (wo * 32 : Nat)

/-- Bit v of a 256-bit vector bitmap stored as eight 32-bit words at array
stride four (vlapic_test_vector over the same layout). -/
def wordTest (word : Nat → Nat) (v : Nat) : Bool :=
  (word (v / 32 * 4)).testBit (v % 32)

/-- Highest set index of a boolean-modelled vector bitmap, scanning indices
from the top, mirroring vlapic_find_highest_vector on the abstract bitmap. -/
def findHighestAux (b : Nat → Bool) : Nat → Int
  | 0 => -1
  | n + 1 => if b n then (n : Int) else findHighestAux b n

/-- vlapic_find_highest_vector over the boolean bitmap model: -1 when empty,
else the highest set vector. -/
def findHighest (b : Nat → Bool) : Int := findHighestAux b X86_IDT_VECTORS

/-- vlapic_set_vector on the boolean bitmap model. -/
def setVec (b : Nat → Bool) (v : Nat) : Nat → Bool :=
  fun w => if w = v then true else b w

/-- vlapic_clear_vector on the boolean bitmap model. -/
def clearVec (b : Nat → Bool) (v : Nat) : Nat → Bool :=
  fun w => if w = v then false else b w

/-- APIC_VECTOR_MASK: the vector field of an LVT entry or ICR low word. -/
def APIC_VECTOR_MASK : Nat := 0xff

/-- Modelled from the spec: the legal-vector predicate APIC_VECTOR_VALID, whose
definition lives in a header not under src/.  The spec says the acceptance path
rejects vectors outside the legal range; architecturally vectors 0-15 are
illegal, so a vector field is valid iff it is at least 16. -/
def APIC_VECTOR_VALID (x : Nat) : Bool := decide (16 ≤ x &&& APIC_VECTOR_MASK)

/-- APIC_LVT_MASKED: the mask bit of an LVT entry (bit 16). -/
def APIC_LVT_MASKED : Nat := 0x10000

/-- Bit position of APIC_ESR_RECVILL (receive-illegal-vector, ESR bit 6). -/
def APIC_ESR_RECVILL_BIT : Nat := 6

/-- Bit position of APIC_ESR_SENDILL (send-illegal-vector, ESR bit 5). -/
def APIC_ESR_SENDILL_BIT : Nat := 5

/-- The controller state touched by the acceptance / priority machinery:
the three vector bitmaps, the task-priority register, the error LVT register
and the lockless pending-error-status word (vlapic->hw.pending_esr). -/
structure VlapicState where
  irr : Nat → Bool
  isr : Nat → Bool
  tmr : Nat → Bool
  taskpri : Nat
  lvterr : Nat
  pending_esr : Nat

/-- vlapic_get_ppr (src/xen/arch/x86/hvm/vlapic.c:178-197): processor priority
from the task-priority register and the highest in-service vector. -/
def vlapic_get_ppr (s : VlapicState) : Nat :=
  let tpr := s.taskpri
  let isr := findHighest s.isr
  let isrv : Nat := if isr = -1 then 0 else isr.toNat
  if tpr &&& 0xf0 ≥ isrv &&& 0xf0 then tpr &&& 0xff else isrv &&& 0xf0

/-- The body of vlapic_set_irq (src/xen/arch/x86/hvm/vlapic.c:149-171) once the
vector passed APIC_VECTOR_VALID: update TMR per the trigger mode, then either
hand the vector to the posted-interrupt hook (when present) or test-and-set IRR
and kick the target vcpu only on a 0-to-1 transition.  The returned boolean
records whether vcpu_kick was called. -/
def vlapic_set_irq_valid (posted : Bool) (s : VlapicState) (vec : Nat) (trig : Bool) :
    VlapicState × Bool :=
  let s1 : VlapicState :=
    { s with tmr := if trig then setVec s.tmr vec else clearVec s.tmr vec }
  if posted then (s1, false)
  else if s1.irr vec then (s1, false)
  else ({ s1 with irr := setVec s1.irr vec }, true)

/-- vlapic_error (src/xen/arch/x86/hvm/vlapic.c:105-135): lockless
test-and-set of the error bit in pending_esr; only the first setter injects the
error LVT vector, and only when LVTERR is unmasked with a valid vector — an
unmasked LVTERR with an illegal vector folds RECVILL into pending_esr instead.
Result: (state, injected?, kicked?). -/
def vlapic_error (posted : Bool) (s : VlapicState) (err_bit : Nat) :
    VlapicState × Bool × Bool :=
  if s.pending_esr.testBit err_bit then (s, false, false)
  else
    let s1 : VlapicState := { s with pending_esr := s.pending_esr ||| (1 <<< err_bit) }
    let lvterr := s1.lvterr
    if lvterr &&& APIC_LVT_MASKED = 0 then
      if APIC_VECTOR_VALID lvterr then
        let r := vlapic_set_irq_valid posted s1 (lvterr &&& APIC_VECTOR_MASK) false
        (r.1, true, r.2)
      else
        ({ s1 with pending_esr := s1.pending_esr ||| (1 <<< APIC_ESR_RECVILL_BIT) },
         false, false)
    else (s1, false, false)

/-- vlapic_set_irq (src/xen/arch/x86/hvm/vlapic.c:149-171): an illegal vector
raises the RECVILL error and delivers nothing; a legal vector goes through the
acceptance body.  Result: (state, kicked?). -/
def vlapic_set_irq (posted : Bool) (s : VlapicState) (vec : Nat) (trig : Bool) :
    VlapicState × Bool :=
  if APIC_VECTOR_VALID vec then vlapic_set_irq_valid posted s vec trig
  else
    let r := vlapic_error posted s APIC_ESR_RECVILL_BIT
    (r.1, r.2.2)

/-- vlapic_handle_EOI (src/xen/arch/x86/hvm/vlapic.c:463-472): returns the
I/O-APIC completion notifications (sent only when the vector's TMR bit is
level) and the device-interrupt (dpci msi) notifications (sent always). -/
def vlapic_handle_EOI (s : VlapicState) (vector : Nat) : List Nat × List Nat :=
  (if s.tmr vector then [vector] else [], [vector])

/-- One pass of the vlapic_EOI_set loop body: none when the ISR is empty (a
spurious EOI), otherwise the state with the highest in-service vector cleared
together with the downstream notifications for that vector. -/
def eoiStep (s : VlapicState) : Option (VlapicState × (List Nat × List Nat)) :=
  let vec := findHighest s.isr
  if vec = -1 then none
  else
    let v := vec.toNat
    some ({ s with isr := clearVec s.isr v }, vlapic_handle_EOI s v)

/-- vlapic_EOI_set (src/xen/arch/x86/hvm/vlapic.c:419-461).  The viridian
apic-assist "an EOI was elided" collaborator flag is the boolean input
missed_eoi; when it is set the whole sequence runs one extra time (the goto
again replay).  Result: final state plus the concatenated I/O-APIC and device
notification lists. -/
def vlapic_EOI_set (missed_eoi : Bool) (s : VlapicState) :
    VlapicState × (List Nat × List Nat) :=
  match eoiStep s with
  | none => (s, ([], []))
  | some (s1, n1) =>
    if missed_eoi then
      match eoiStep s1 with
      | none => (s1, n1)
      | some (s2, n2) => (s2, (n1.1 ++ n2.1, n1.2 ++ n2.2))
    else (s1, n1)

/-- The platform and viridian capabilities consulted by
vlapic_ack_pending_irq: direct virtual interrupt delivery
(hvm_funcs.caps.virtual_intr_delivery), the apic-assist elision feature, the
synthetic-interrupt controller and its auto-EOI sink predicate. -/
structure AckEnv where
  virtual_intr_delivery : Bool
  has_viridian_apic_assist : Bool
  has_viridian_synic : Bool
  auto_eoi_sint : Nat → Bool

/-- vlapic_ack_pending_irq (src/xen/arch/x86/hvm/vlapic.c:1383-1416).  The
per-vcpu viridian apic-assist flag is modelled by the boolean assist.
Result: (state, assist flag, return value). -/
def vlapic_ack_pending_irq (env : AckEnv) (s : VlapicState) (assist : Bool)
    (vector : Nat) (force_ack : Bool) : VlapicState × Bool × Nat :=
  if force_ack = false ∧ env.virtual_intr_delivery = true then (s, assist, 1)
  else
    let assist1 : Bool :=
      if env.has_viridian_apic_assist = false ∨ s.tmr vector = true then assist
      else if findHighest s.isr = -1 ∧ 0x10 < vector then true
      else assist
    let s1 : VlapicState :=
      if env.has_viridian_synic = false ∨ env.auto_eoi_sint vector = false then
        { s with isr := setVec s.isr vector }
      else s
    ({ s1 with irr := clearVec s1.irr vector }, assist1, 1)

/-- GET_xAPIC_LOGICAL_ID: the 8-bit logical ID field of the LDR register. -/
def GET_xAPIC_LOGICAL_ID (x : Nat) : Nat := (x >>> 24) &&& 0xff

/-- APIC_DFR_FLAT: destination-format register value selecting flat mode. -/
def APIC_DFR_FLAT : Nat := 0xffffffff

/-- APIC_DFR_CLUSTER: destination-format register value selecting cluster
mode. -/
def APIC_DFR_CLUSTER : Nat := 0x0fffffff

/-- The per-controller registers consulted by logical destination matching:
the addressing mode, the logical-destination register and the
destination-format register. -/
structure LogicalCfg where
  x2apic_mode : Bool
  ldr : Nat
  dfr : Nat

/-- vlapic_match_logical_addr (src/xen/arch/x86/hvm/vlapic.c:207-237).  In
x2apic mode the destination splits into a 16-bit cluster half (exact match)
and a 16-bit bit-share half; in xapic mode the DFR selects flat (shared bit in
the 8-bit logical ID) or cluster (top nibble equal and shared bit in the low
nibble); any other DFR value is reported and treated as no-match. -/
def vlapic_match_logical_addr (c : LogicalCfg) (mda : Nat) : Bool :=
  if c.x2apic_mode then
    decide (c.ldr >>> 16 = mda >>> 16) && decide ((c.ldr &&& mda) &&& 0xffff ≠ 0)
  else
    let logical_id := GET_xAPIC_LOGICAL_ID c.ldr
    let mda8 := mda &&& 0xff
    if c.dfr = APIC_DFR_FLAT then decide (logical_id &&& mda8 ≠ 0)
    else if c.dfr = APIC_DFR_CLUSTER then
      decide (logical_id >>> 4 = mda8 >>> 4) && decide ((logical_id &&& mda8) &&& 0xf ≠ 0)
    else false

/-- Modelled from the spec: APIC_BUS_CYCLE_NS, the bus-cycle length constant
(a header value not under src/); the spec keeps it abstract as the
"bus-cycle-length" factor of the timer divider. -/
def APIC_BUS_CYCLE_NS : Nat := 10

/-- APIC_TIMER_MODE_MASK: timer-mode bits of the LVTT register. -/
def APIC_TIMER_MODE_MASK : Nat := 0x60000

/-- APIC_TIMER_MODE_PERIODIC: LVTT timer-mode value for periodic mode. -/
def APIC_TIMER_MODE_PERIODIC : Nat := 0x20000

/-- The controller state consulted by a current-count register read: the
initial-count register, the LVTT register, the demangled divisor and the
last-update timestamp maintained by the timer subsystem. -/
structure TimerView where
  tmict : Nat
  lvtt : Nat
  timer_divisor : Nat
  timer_last_update : Nat

/-- vlapic_lvtt_period: the LVTT register selects periodic timer mode. -/
def vlapic_lvtt_period (t : TimerView) : Bool :=
  decide (t.lvtt &&& APIC_TIMER_MODE_MASK = APIC_TIMER_MODE_PERIODIC)

/-- vlapic_get_tmcct (src/xen/arch/x86/hvm/vlapic.c:559-583): derive the
current count on demand from the elapsed guest time, the bus cycle length and
the divisor; zero whenever the initial count or the last-update stamp is
zero. -/
def vlapic_get_tmcct (t : TimerView) (now : Nat) : Nat :=
  let tmict := t.tmict
  let counter_passed :=
    (now - t.timer_last_update) / (APIC_BUS_CYCLE_NS * t.timer_divisor)
  if tmict ≠ 0 ∧ t.timer_last_update ≠ 0 then
    let cp := if vlapic_lvtt_period t then counter_passed % tmict else counter_passed
    if cp < tmict then tmict - cp else 0
  else 0

/-- APIC_BASE_ENABLE: the overall-enable bit (bit 11) of the APIC base MSR;
modelled from the spec, the MSR layout header being outside src/. -/
def APIC_BASE_ENABLE : Nat := 0x800

/-- APIC_BASE_EXTD: the extended-addressing (x2apic) bit (bit 10) of the APIC
base MSR; modelled from the spec, the MSR layout header being outside src/. -/
def APIC_BASE_EXTD : Nat := 0x400

/-- The persisted "hidden" record (struct hvm_hw_lapic): base MSR value,
disabled flags, demangled timer divisor and the TSC-deadline value. -/
structure HvmHwLapic where
  apic_base_msr : Nat
  disabled : Nat
  timer_divisor : Nat
  tdt_msr : Nat

/-- lapic_check_common (src/xen/arch/x86/hvm/vlapic.c:1579-1593): reject a
record for a domain without a vlapic (-ENODEV = -19) or naming a nonexistent
vcpu (-EINVAL = -22). -/
def lapic_check_common (has_vlapic vcpu_exists : Bool) : Except Int Unit :=
  if has_vlapic = false then .error (-19)
  else if vcpu_exists = false then .error (-22)
  else .ok ()

/-- lapic_check_hidden (src/xen/arch/x86/hvm/vlapic.c:1595-1614): the pure
check phase for a hidden record.  A missing or short entry is -ENODATA (-61);
a base MSR with EXTD set but ENABLE clear is rejected with -EINVAL (-22). -/
def lapic_check_hidden (has_vlapic vcpu_exists : Bool) (record : Option HvmHwLapic) :
    Except Int Unit :=
  match lapic_check_common has_vlapic vcpu_exists with
  | .error e => .error e
  | .ok _ =>
    match record with
    | none => .error (-61)
    | some s =>
      if s.apic_base_msr &&& (APIC_BASE_ENABLE ||| APIC_BASE_EXTD) = APIC_BASE_EXTD then
        .error (-22)
      else .ok ()

/-- Modelled from the spec: the save/restore framework (not under src/) runs
the check phase of every record first and applies the load phase
(lapic_load_hidden, which overwrites the controller's hidden state with the
record) only when the check succeeded, so a rejected record changes no
controller state. -/
def lapic_restore_hidden (hw : HvmHwLapic) (has_vlapic vcpu_exists : Bool)
    (record : Option HvmHwLapic) : Except Int HvmHwLapic :=
  match lapic_check_hidden has_vlapic vcpu_exists record with
  | .error e => .error e
  | .ok _ => .ok (record.getD hw)

/-- APIC_TDCR: the offset of the divide-configuration register, the last
defined register of the memory-mapped file. -/
def APIC_TDCR : Nat := 0x3e0

/-- X86EMUL_OKAY: the success return value of an emulation handler. -/
def X86EMUL_OKAY : Nat := 0

/-- vlapic_mmio_read (src/xen/arch/x86/hvm/vlapic.c:623-655): an access is
served from the register file only when it fits entirely inside one 32-bit
register and does not lie past the last defined register; everything else
reads as zero, and the handler always returns X86EMUL_OKAY.  readAligned
stands for vlapic_read_aligned over the register file. -/
def vlapic_mmio_read (readAligned : Nat → Nat) (offset len : Nat) : Nat × Nat :=
  let alignment := offset &&& 0xf
  if alignment + len ≤ 4 ∧ offset ≤ APIC_TDCR + 3 then
    let reg := readAligned (offset &&& 0xfffffff0)
    let result :=
      if len = 1 then (reg >>> (alignment * 8)) &&& 0xff
      else if len = 2 then (reg >>> (alignment * 8)) &&& 0xffff
      else if len = 4 then reg
      else 0
    (result, X86EMUL_OKAY)
  else (0, X86EMUL_OKAY)

/-- A controller state with empty bitmaps and zeroed registers, used to
instantiate witnesses. -/
def emptyState : VlapicState :=
  { irr := fun _ => false, isr := fun _ => false, tmr := fun _ => false,
    taskpri := 0, lvterr := 0, pending_esr := 0 }

/-- A controller state whose ISR holds exactly vector 0xe0. -/
def isrHighState : VlapicState :=
  { emptyState with isr := fun v => decide (v = 0xe0) }

/-- A controller state whose LVTERR is unmasked with the illegal vector 5. -/
def badLvterrState : VlapicState :=
  { emptyState with lvterr := 0x05 }

/-- An acknowledge environment with no direct virtual-interrupt delivery, the
apic-assist elision feature available and no synthetic-interrupt
controller. -/
def ackEnv0 : AckEnv :=
  { virtual_intr_delivery := false, has_viridian_apic_assist := true,
    has_viridian_synic := false, auto_eoi_sint := fun _ => false }

/-- A logical-addressing configuration in xapic flat mode whose logical ID is
0x01. -/
def flatCfg : LogicalCfg :=
  { x2apic_mode := false, ldr := 0x01000000, dfr := APIC_DFR_FLAT }

/-- A word-model bitmap holding exactly vector 82 (bit 18 of word 2, which
lives at array index 8). -/
def word82 : Nat → Nat := fun i => if i = 8 then 0x40000 else 0

/-- A timer view in periodic mode with initial count 1000, divisor 1 and
last-update stamp 1. -/
def timer1000 : TimerView :=
  { tmict := 1000, lvtt := APIC_TIMER_MODE_PERIODIC, timer_divisor := 1,
    timer_last_update := 1 }

/-- A hidden record whose base MSR has EXTD set but ENABLE clear. -/
def extdOnlyRecord : HvmHwLapic :=
  { apic_base_msr := 0x400, disabled := 0, timer_divisor := 1, tdt_msr := 0 }

/-- A hidden record with a benign base MSR, used as the pre-restore state. -/
def plainHw : HvmHwLapic :=
  { apic_base_msr := 0x800, disabled := 0, timer_divisor := 1, tdt_msr := 0 }

/-- The scan over the boolean bitmap returns -1 when no index below the bound
is set. -/
theorem findHighestAux_of_empty (b : Nat → Bool) (n : Nat)
    (h : ∀ v, v < n → b v = false) : findHighestAux b n = -1 := by
  induction n with
  | zero => rfl
  | succ k ih =>
    have hb : b k = false := h k (Nat.lt_succ_self k)
    simp only [findHighestAux, hb, Bool.false_eq_true, if_false]
    exact ih fun v hv => h v (Nat.lt_succ_of_lt hv)

/-- The scan over the boolean bitmap returns any index that is set and
dominates every set index below the bound. -/
theorem findHighestAux_of_max (b : Nat → Bool) (n m : Nat) (hmn : m < n)
    (hb : b m = true) (hmax : ∀ u, u < n → b u = true → u ≤ m) :
    findHighestAux b n = (m : Int) := by
  induction n with
  | zero => exact absurd hmn (Nat.not_lt_zero m)
  | succ k ih =>
    by_cases hk : b k = true
    · have h1 : k ≤ m := hmax k (Nat.lt_succ_self k) hk
      have h2 : m ≤ k := Nat.lt_succ_iff.mp hmn
      have hkm : k = m := Nat.le_antisymm h1 h2
      subst hkm
      simp only [findHighestAux, hk, if_true]
    · have hb' : b k = false := Bool.eq_false_iff.mpr fun e => hk e
      have hmk : m ≠ k := fun e => hk (e ▸ hb)
      have hm : m < k := Nat.lt_of_le_of_ne (Nat.lt_succ_iff.mp hmn) hmk
      simp only [findHighestAux, hb', Bool.false_eq_true, if_false]
      exact ih hm fun u hu hbu => hmax u (Nat.lt_succ_of_lt hu) hbu

/-- The scan returns -1 exactly on an empty bitmap. -/
theorem findHighestAux_eq_neg_one_iff (b : Nat → Bool) (n : Nat) :
    findHighestAux b n = -1 ↔ ∀ v, v < n → b v = false := by
  constructor
  · intro h v hv
    induction n with
    | zero => exact absurd hv (Nat.not_lt_zero v)
    | succ k ih =>
      by_cases hk : b k = true
      · simp only [findHighestAux, hk, if_true] at h
        omega
      · have hb' : b k = false := Bool.eq_false_iff.mpr fun e => hk e
        simp only [findHighestAux, hb', Bool.false_eq_true, if_false] at h
        rcases Nat.lt_succ_iff_lt_or_eq.mp hv with h' | h'
        · exact ih h h'
        · exact h' ▸ hb'
  · exact findHighestAux_of_empty b n

/-- findHighest over the 256-entry bitmap is -1 exactly when the bitmap is
empty. -/
theorem findHighest_eq_neg_one_iff (b : Nat → Bool) :
    findHighest b = -1 ↔ ∀ v, v < 256 → b v = false :=
  findHighestAux_eq_neg_one_iff b 256

/-- A nonzero word has its top (log2) bit set. -/
theorem testBit_log2_self (x : Nat) (hx : x ≠ 0) :
    x.testBit (Nat.log2 x) = true := by
  have h1 : 2 ^ Nat.log2 x ≤ x := Nat.log2_self_le hx
  have h2 : x < 2 ^ (Nat.log2 x + 1) := Nat.lt_log2_self
  have h2' : x < (1 + 1) * 2 ^ Nat.log2 x := by
    rw [pow_succ] at h2; omega
  have hdiv : x / 2 ^ Nat.log2 x = 1 :=
    Nat.div_eq_of_lt_le (by omega) h2'
  rw [Nat.testBit_to_div_mod, hdiv]
  rfl

/-- Bits above the top (log2) bit of a word are clear. -/
theorem testBit_false_of_log2_lt (x k : Nat) (h : Nat.log2 x < k) :
    x.testBit k = false := by
  rcases Nat.eq_zero_or_pos x with hx | hx
  · rw [hx]; exact Nat.zero_testBit k
  · have hx' : x ≠ 0 := Nat.pos_iff_ne_zero.mp hx
    have h2 : x < 2 ^ (Nat.log2 x + 1) := Nat.lt_log2_self
    have hle : 2 ^ (Nat.log2 x + 1) ≤ 2 ^ k :=
      Nat.pow_le_pow_right (by omega) (by omega)
    exact Nat.testBit_eq_false_of_lt (Nat.lt_of_lt_of_le h2 hle)

/-- A conjunction of words masked to the low k bits is nonzero exactly when
the two words share a set bit below k. -/
theorem land_mask_ne_zero_iff (a b k : Nat) :
    (a &&& b) &&& (2 ^ k - 1) ≠ 0 ↔
      ∃ i, i < k ∧ a.testBit i = true ∧ b.testBit i = true := by
  constructor
  · intro h
    obtain ⟨i, hi, -⟩ := Nat.exists_most_significant_bit h
    rw [Nat.testBit_land, Nat.testBit_land, Nat.testBit_two_pow_sub_one] at hi
    simp only [Bool.and_eq_true, decide_eq_true_eq] at hi
    exact ⟨i, hi.2, hi.1.1, hi.1.2⟩
  · rintro ⟨i, hik, ha, hb⟩
    intro h0
    have : ((a &&& b) &&& (2 ^ k - 1)).testBit i = false := by
      rw [h0]; exact Nat.zero_testBit i
    rw [Nat.testBit_land, Nat.testBit_land, Nat.testBit_two_pow_sub_one,
        ha, hb] at this
    simp [hik] at this

/-- Masking a word already below 2^k with the low-k mask is the identity. -/
theorem land_mask_of_lt (x k : Nat) (h : x < 2 ^ k) : x &&& (2 ^ k - 1) = x := by
  apply Nat.eq_of_testBit_eq
  intro i
  rw [Nat.testBit_land, Nat.testBit_two_pow_sub_one]
  by_cases hik : i < k
  · simp [hik]
  · have : x < 2 ^ i :=
      Nat.lt_of_lt_of_le h (Nat.pow_le_pow_right (by omega) (by omega))
    simp [hik, Nat.testBit_eq_false_of_lt this]

/-- The backward word scan ends at offset zero when every word below the
bound is zero. -/
theorem fhvLoop_of_zero (word : Nat → Nat) (n : Nat)
    (h : ∀ i, i < n → word (i * 4) = 0) : fhvLoop word n = 0 := by
  induction n with
  | zero => rfl
  | succ k ih =>
    have hk : word (k * 4) = 0 := h k (Nat.lt_succ_self k)
    simp only [fhvLoop, hk, if_true]
    exact ih fun i hi => h i (Nat.lt_succ_of_lt hi)

/-- The backward word scan ends at the highest nonzero word. -/
theorem fhvLoop_of_max (word : Nat → Nat) (n j : Nat) (hj : j < n)
    (hnz : word (j * 4) ≠ 0) (hhi : ∀ i, j < i → i < n → word (i * 4) = 0) :
    fhvLoop word n = j := by
  induction n with
  | zero => exact absurd hj (Nat.not_lt_zero j)
  | succ k ih =>
    by_cases hk : j = k
    · subst hk
      simp only [fhvLoop, hnz, if_false]
    · have hjk : j < k := Nat.lt_of_le_of_ne (Nat.lt_succ_iff.mp hj) hk
      have hzk : word (k * 4) = 0 := hhi k hjk (Nat.lt_succ_self k)
      simp only [fhvLoop, hzk, if_true]
      exact ih hjk fun i h1 h2 => hhi i h1 (Nat.lt_succ_of_lt h2)

/-- Claim C9: for every 256-bit bitmap (eight 32-bit words at stride four),
vlapic_find_highest_vector returns -1 when all 256 bits are clear, and
otherwise returns the index of the highest set bit, so vector 255 beats
vector 0 in the priority order. -/
theorem vlapic_find_highest_vector_spec (word : Nat → Nat)
    (hw : ∀ i, i < 8 → word (i * 4) < 2 ^ 32) :
    ((∀ v, v < 256 → wordTest word v = false) →
       vlapic_find_highest_vector word = -1) ∧
    (∀ m, m < 256 → wordTest word m = true →
       (∀ u, u < 256 → wordTest word u = true → u ≤ m) →
       vlapic_find_highest_vector word = (m : Int)) := by
  have hbound : X86_IDT_VECTORS / 32 = 8 := rfl
  constructor
  · intro h
    have hz : ∀ i, i < 8 → word (i * 4) = 0 := by
      intro i hi
      apply Nat.zero_of_testBit_eq_false
      intro k
      by_cases hk : k < 32
      · have hv := h (32 * i + k) (by omega)
        have hdiv : (32 * i + k) / 32 = i := by omega
        have hmod : (32 * i + k) % 32 = k := by omega
        simpa [wordTest, hdiv, hmod] using hv
      · exact Nat.testBit_eq_false_of_lt
          (Nat.lt_of_lt_of_le (hw i hi)
            (Nat.pow_le_pow_right (by omega) (by omega)))
    have hloop : fhvLoop word (X86_IDT_VECTORS / 32) = 0 := by
      rw [hbound]; exact fhvLoop_of_zero word 8 hz
    show (fls (word (fhvLoop word (X86_IDT_VECTORS / 32) * 4)) : Int) - 1 +
        ((fhvLoop word (X86_IDT_VECTORS / 32)) * 32 : Nat) = -1
    rw [hloop]
    have h0 : word 0 = 0 := by simpa using hz 0 (by omega)
    simp [fls, h0]
  · intro m hm hbm hmax
    have hdm : m / 32 < 8 := by omega
    set j := m / 32 with hjdef
    set l := m % 32 with hldef
    have hword : word (j * 4) ≠ 0 := by
      intro h0
      rw [wordTest, ← hjdef, ← hldef, h0, Nat.zero_testBit] at hbm
      exact Bool.false_ne_true hbm
    have hhi : ∀ i, j < i → i < 8 → word (i * 4) = 0 := by
      intro i hji hi8
      by_contra hnz
      have hk32 : Nat.log2 (word (i * 4)) < 32 := (Nat.log2_lt hnz).mpr (hw i hi8)
      have hbit : wordTest word (32 * i + Nat.log2 (word (i * 4))) = true := by
        have hdiv : (32 * i + Nat.log2 (word (i * 4))) / 32 = i := by omega
        have hmod : (32 * i + Nat.log2 (word (i * 4))) % 32 =
            Nat.log2 (word (i * 4)) := by omega
        rw [wordTest, hdiv, hmod]
        exact testBit_log2_self _ hnz
      have hle := hmax _ (by omega) hbit
      omega
    have hloop : fhvLoop word (X86_IDT_VECTORS / 32) = j := by
      rw [hbound]; exact fhvLoop_of_max word 8 j hdm hword hhi
    have hl2 : Nat.log2 (word (j * 4)) < 32 := (Nat.log2_lt hword).mpr (hw j hdm)
    have hlle : l ≤ Nat.log2 (word (j * 4)) := by
      by_contra hlt
      have hfalse : (word (j * 4)).testBit l = false :=
        testBit_false_of_log2_lt _ _ (by omega)
      rw [wordTest, ← hjdef, ← hldef, hfalse] at hbm
      exact Bool.false_ne_true hbm
    have hlge : Nat.log2 (word (j * 4)) ≤ l := by
      have hbit : wordTest word (32 * j + Nat.log2 (word (j * 4))) = true := by
        have hdiv : (32 * j + Nat.log2 (word (j * 4))) / 32 = j := by omega
        have hmod : (32 * j + Nat.log2 (word (j * 4))) % 32 =
            Nat.log2 (word (j * 4)) := by omega
        rw [wordTest, hdiv, hmod]
        exact testBit_log2_self _ hword
      have hle := hmax _ (by omega) hbit
      omega
    have hL : Nat.log2 (word (j * 4)) = l := Nat.le_antisymm hlge hlle
    show (fls (word (fhvLoop word (X86_IDT_VECTORS / 32) * 4)) : Int) - 1 +
        ((fhvLoop word (X86_IDT_VECTORS / 32)) * 32 : Nat) = (m : Int)
    rw [hloop]
    rw [fls, if_neg hword, hL]
    have hm32 : m = 32 * j + l := by omega
    push_cast
    omega

/-- Witness for C9: on the bitmap holding exactly vector 82, the scan finds
82. -/
theorem vlapic_find_highest_vector_spec_witness :
    (∀ i, i < 8 → word82 (i * 4) < 2 ^ 32) ∧
      vlapic_find_highest_vector word82 = (82 : Int) :=
  ⟨by decide,
   (vlapic_find_highest_vector_spec word82 (by decide)).2 82 (by decide)
     (by decide) (by decide)⟩

/-- Claim C1: vlapic_get_ppr returns the full task-priority byte
(TASKPRI &&& 0xff) when the task priority's high nibble is at least the high
nibble of the highest in-service vector (taken as 0 when the in-service
bitmap is empty), and otherwise returns that in-service high nibble with the
low nibble zero. -/
theorem vlapic_get_ppr_spec (s : VlapicState) :
    ((∀ v, v < 256 → s.isr v = false) →
       vlapic_get_ppr s = s.taskpri &&& 0xff) ∧
    (∀ m, m < 256 → s.isr m = true →
       (∀ u, u < 256 → s.isr u = true → u ≤ m) →
       vlapic_get_ppr s =
         if m &&& 0xf0 ≤ s.taskpri &&& 0xf0 then s.taskpri &&& 0xff
         else m &&& 0xf0) := by
  constructor
  · intro h
    have hf : findHighest s.isr = -1 := (findHighest_eq_neg_one_iff s.isr).mpr h
    simp [vlapic_get_ppr, hf]
  · intro m hm hb hmax
    have hf : findHighest s.isr = (m : Int) :=
      findHighestAux_of_max s.isr 256 m hm hb hmax
    have hne : ¬((m : Int) = -1) := by omega
    simp only [vlapic_get_ppr, hf, hne, if_false, Int.toNat_natCast]

/-- Witness for C1: with only vector 0xe0 in service and task priority 0, the
processor priority is 0xe0. -/
theorem vlapic_get_ppr_spec_witness : vlapic_get_ppr isrHighState = 0xe0 :=
  ((vlapic_get_ppr_spec isrHighState).2 0xe0 (by decide) (by decide)
    (by decide)).trans (by decide)

/-- Claim C3: an end-of-interrupt write on an empty in-service bitmap is a
no-op — vlapic_EOI_set returns without clearing any bit and without notifying
the I/O-APIC or device-interrupt collaborators, for either value of the
apic-assist replay flag. -/
theorem vlapic_EOI_set_empty_noop (missed : Bool) (s : VlapicState)
    (h : ∀ v, v < 256 → s.isr v = false) :
    vlapic_EOI_set missed s = (s, ([], [])) := by
  have hf : findHighest s.isr = -1 := (findHighest_eq_neg_one_iff s.isr).mpr h
  simp [vlapic_EOI_set, eoiStep, hf]

/-- Witness for C3: on the empty controller state a (replayed) EOI changes
nothing and sends nothing. -/
theorem vlapic_EOI_set_empty_noop_witness :
    vlapic_EOI_set true emptyState = (emptyState, ([], [])) :=
  vlapic_EOI_set_empty_noop true emptyState (by decide)

/-- Claim C4: with the posted-interrupt fast path absent, asserting the same
legal vector twice without an intervening acknowledgment kicks the target at
most once — after the first assertion the in-request bit is set, and the
second assertion performs no wake-up. -/
theorem vlapic_set_irq_second_no_kick (s : VlapicState) (vec : Nat)
    (t1 t2 : Bool) (hv : APIC_VECTOR_VALID vec = true) :
    (vlapic_set_irq false s vec t1).1.irr vec = true ∧
    (vlapic_set_irq false ((vlapic_set_irq false s vec t1).1) vec t2).2 =
      false := by
  have hset : ∀ (s' : VlapicState) (t : Bool),
      (vlapic_set_irq false s' vec t).1.irr vec = true := by
    intro s' t
    simp only [vlapic_set_irq, hv, if_true, vlapic_set_irq_valid]
    by_cases hirr : s'.irr vec = true
    · simp [hirr]
    · simp only [Bool.not_eq_true] at hirr
      simp [hirr, setVec]
  refine ⟨hset s t1, ?_⟩
  have h1 := hset s t1
  set s2 := (vlapic_set_irq false s vec t1).1 with hs2
  simp only [vlapic_set_irq, hv, if_true, vlapic_set_irq_valid]
  simp [h1]

/-- Witness for C4: asserting legal vector 0x30 twice from the empty state,
the second assertion does not kick. -/
theorem vlapic_set_irq_second_no_kick_witness :
    APIC_VECTOR_VALID 0x30 = true ∧
    (vlapic_set_irq false ((vlapic_set_irq false emptyState 0x30 false).1)
        0x30 false).2 = false :=
  ⟨by decide,
   (vlapic_set_irq_second_no_kick emptyState 0x30 false false (by decide)).2⟩

/-- Claim C5: vlapic_error injects the error LVT vector exactly when the
test-and-set of the error bit in pending_esr transitions it from 0 to 1 and
the error LVT is unmasked with a legal vector; when the error LVT is unmasked
but its vector is illegal, nothing is injected and the
illegal-vector-received bit is folded into pending_esr instead, terminating
the self-referential error path. -/
theorem vlapic_error_spec (posted : Bool) (s : VlapicState) (err_bit : Nat) :
    ((vlapic_error posted s err_bit).2.1 = true ↔
       s.pending_esr.testBit err_bit = false ∧
       s.lvterr &&& APIC_LVT_MASKED = 0 ∧
       APIC_VECTOR_VALID s.lvterr = true) ∧
    (s.pending_esr.testBit err_bit = false →
     s.lvterr &&& APIC_LVT_MASKED = 0 →
     APIC_VECTOR_VALID s.lvterr = false →
       (vlapic_error posted s err_bit).2.1 = false ∧
       (vlapic_error posted s err_bit).1.pending_esr.testBit
           APIC_ESR_RECVILL_BIT = true ∧
       (vlapic_error posted s err_bit).1.irr = s.irr ∧
       (vlapic_error posted s err_bit).1.isr = s.isr ∧
       (vlapic_error posted s err_bit).1.tmr = s.tmr) := by
  constructor
  · by_cases h1 : s.pending_esr.testBit err_bit = true
    · simp [vlapic_error, h1]
    · simp only [Bool.not_eq_true] at h1
      by_cases h2 : s.lvterr &&& APIC_LVT_MASKED = 0
      · by_cases h3 : APIC_VECTOR_VALID s.lvterr = true
        · simp [vlapic_error, h1, h2, h3, vlapic_set_irq_valid]
        · simp only [Bool.not_eq_true] at h3
          simp [vlapic_error, h1, h2, h3]
      · simp [vlapic_error, h1, h2]
  · intro h1 h2 h3
    simp only [vlapic_error, h1, Bool.false_eq_true, if_false, h2, if_true,
      h3]
    simp [Nat.testBit_lor, Nat.one_shiftLeft, Nat.testBit_two_pow_self]

/-- Witness for C5: with an unmasked error LVT carrying illegal vector 5,
raising the send-illegal-vector error injects nothing and folds RECVILL into
pending_esr. -/
theorem vlapic_error_spec_witness :
    (vlapic_error false badLvterrState APIC_ESR_SENDILL_BIT).2.1 = false ∧
    (vlapic_error false badLvterrState APIC_ESR_SENDILL_BIT).1.pending_esr.testBit
      APIC_ESR_RECVILL_BIT = true :=
  ⟨((vlapic_error_spec false badLvterrState APIC_ESR_SENDILL_BIT).2
      (by decide) (by decide) (by decide)).1,
   ((vlapic_error_spec false badLvterrState APIC_ESR_SENDILL_BIT).2
      (by decide) (by decide) (by decide)).2.1⟩

/-- Claim C7: in periodic mode with nonzero initial count and nonzero
last-update stamp, reading the current count yields the initial count minus
the elapsed counter ticks modulo the initial count; whenever the initial
count or the last-update stamp is zero, the read yields 0. -/
theorem vlapic_get_tmcct_spec (t : TimerView) (now : Nat) :
    (t.lvtt &&& APIC_TIMER_MODE_MASK = APIC_TIMER_MODE_PERIODIC →
     t.tmict ≠ 0 → t.timer_last_update ≠ 0 →
       vlapic_get_tmcct t now =
         t.tmict -
           ((now - t.timer_last_update) /
               (APIC_BUS_CYCLE_NS * t.timer_divisor)) % t.tmict) ∧
    ((t.tmict = 0 ∨ t.timer_last_update = 0) →
       vlapic_get_tmcct t now = 0) := by
  constructor
  · intro hp h1 h2
    have hcp : ((now - t.timer_last_update) /
        (APIC_BUS_CYCLE_NS * t.timer_divisor)) % t.tmict < t.tmict :=
      Nat.mod_lt _ (Nat.pos_of_ne_zero h1)
    simp [vlapic_get_tmcct, vlapic_lvtt_period, hp, h1, h2, hcp]
  · intro h
    rcases h with h | h <;> simp [vlapic_get_tmcct, h]

/-- Witness for C7: periodic mode, period 1000 ticks, 2500 ticks elapsed —
the current count reads 500; with a zero last-update stamp it reads 0. -/
theorem vlapic_get_tmcct_spec_witness :
    vlapic_get_tmcct timer1000 25001 = 500 ∧
    vlapic_get_tmcct { timer1000 with timer_last_update := 0 } 25001 = 0 :=
  ⟨((vlapic_get_tmcct_spec timer1000 25001).1 (by decide) (by decide)
      (by decide)).trans (by decide),
   (vlapic_get_tmcct_spec { timer1000 with timer_last_update := 0 } 25001).2
     (Or.inr rfl)⟩

/-- Claim C8: a hidden record whose base MSR has the extended-addressing bit
set but the overall-enable bit clear is rejected in the check phase with
-EINVAL, and restoration of such a record can only fail — no controller
state is ever produced from it. -/
theorem lapic_check_hidden_rejects_extd (hw0 : HvmHwLapic) (r : HvmHwLapic)
    (h : r.apic_base_msr &&& (APIC_BASE_ENABLE ||| APIC_BASE_EXTD) =
      APIC_BASE_EXTD) :
    lapic_check_hidden true true (some r) = .error (-22) ∧
    (∀ hv ve : Bool, ∃ e : Int,
      lapic_restore_hidden hw0 hv ve (some r) = .error e) := by
  have hc : lapic_check_hidden true true (some r) = .error (-22) := by
    simp [lapic_check_hidden, lapic_check_common, h]
  refine ⟨hc, ?_⟩
  intro hv ve
  cases hv with
  | false =>
    exact ⟨-19, by
      simp [lapic_restore_hidden, lapic_check_hidden, lapic_check_common]⟩
  | true =>
    cases ve with
    | false =>
      exact ⟨-22, by
        simp [lapic_restore_hidden, lapic_check_hidden, lapic_check_common]⟩
    | true => exact ⟨-22, by simp [lapic_restore_hidden, hc]⟩

/-- Witness for C8: the record with base MSR 0x400 (EXTD set, ENABLE clear)
is rejected with -EINVAL by the check phase. -/
theorem lapic_check_hidden_rejects_extd_witness :
    lapic_check_hidden true true (some extdOnlyRecord) = .error (-22) :=
  (lapic_check_hidden_rejects_extd plainHw extdOnlyRecord (by decide)).1

/-- Claim C10: the memory-mapped read handler always returns success, and any
access that does not fit inside one 32-bit register (alignment plus length
exceeding 4) or whose offset lies past the last defined register reads as 0
without consulting the register file. -/
theorem vlapic_mmio_read_spec (readAligned : Nat → Nat) (offset len : Nat) :
    (vlapic_mmio_read readAligned offset len).2 = X86EMUL_OKAY ∧
    ((offset &&& 0xf) + len > 4 ∨ offset > APIC_TDCR + 3 →
      ∀ ra : Nat → Nat, vlapic_mmio_read ra offset len = (0, X86EMUL_OKAY)) := by
  constructor
  · by_cases hg : (offset &&& 0xf) + len ≤ 4 ∧ offset ≤ APIC_TDCR + 3
    · simp [vlapic_mmio_read, hg]
    · simp [vlapic_mmio_read, hg]
  · intro h ra
    have hg : ¬((offset &&& 0xf) + len ≤ 4 ∧ offset ≤ APIC_TDCR + 3) := by
      omega
    simp [vlapic_mmio_read, hg]

/-- Witness for C10: a 4-byte access at offset 0x3f0, past the last defined
register, reads 0 with a success return. -/
theorem vlapic_mmio_read_spec_witness :
    vlapic_mmio_read (fun _ => 0xdeadbeef) 0x3f0 4 = (0, X86EMUL_OKAY) :=
  (vlapic_mmio_read_spec (fun _ => 0xdeadbeef) 0x3f0 4).2
    (Or.inr (by decide)) (fun _ => 0xdeadbeef)

/-- Counterexample for C2: with no direct virtual-interrupt delivery, the
elision feature available, no synthetic-interrupt sink, an empty in-service
bitmap and edge-triggered non-legacy vector 0x30, acknowledging sets the
elision flag AND still marks the vector in service — not "instead of" — and
with only the higher-priority vector 0xe0 in service (so no lower-priority
in-service vector exists) the elision flag is NOT set, because the code
requires the in-service bitmap to be entirely empty. -/
theorem vlapic_ack_pending_irq_cex :
    ((vlapic_ack_pending_irq ackEnv0 emptyState false 0x30 false).2.1 = true ∧
     (vlapic_ack_pending_irq ackEnv0 emptyState false 0x30 false).1.isr 0x30 =
       true) ∧
    (vlapic_ack_pending_irq ackEnv0 isrHighState false 0x30 false).2.1 =
      false := by
  decide

/-- Claim C2 (amended): if direct virtual-interrupt delivery is active and
acknowledgment is not forced, vlapic_ack_pending_irq is a no-op returning
success; otherwise it returns success, always clears the vector's in-request
bit, marks the vector in-service unless a synthetic-interrupt sink claims it
(leaving the in-service bitmap untouched in that case), and the elision flag
ends up set exactly when it was already set or the vector is edge-triggered,
non-legacy (above 0x10), the elision feature is available and the in-service
bitmap is entirely empty — elision is set in addition to, not instead of,
marking the vector in service. -/
theorem vlapic_ack_pending_irq_amended (env : AckEnv) (s : VlapicState)
    (assist : Bool) (vector : Nat) (force_ack : Bool) :
    (force_ack = false ∧ env.virtual_intr_delivery = true →
       vlapic_ack_pending_irq env s assist vector force_ack = (s, assist, 1)) ∧
    (force_ack = true ∨ env.virtual_intr_delivery = false →
       (vlapic_ack_pending_irq env s assist vector force_ack).2.2 = 1 ∧
       (vlapic_ack_pending_irq env s assist vector force_ack).1.irr =
         clearVec s.irr vector ∧
       (env.has_viridian_synic = false ∨ env.auto_eoi_sint vector = false →
         (vlapic_ack_pending_irq env s assist vector force_ack).1.isr =
           setVec s.isr vector) ∧
       (env.has_viridian_synic = true ∧ env.auto_eoi_sint vector = true →
         (vlapic_ack_pending_irq env s assist vector force_ack).1.isr =
           s.isr) ∧
       ((vlapic_ack_pending_irq env s assist vector force_ack).2.1 = true ↔
         assist = true ∨
           (env.has_viridian_apic_assist = true ∧ s.tmr vector = false ∧
            (∀ v, v < 256 → s.isr v = false) ∧ 0x10 < vector))) := by
  constructor
  · rintro ⟨hf, hv⟩
    simp [vlapic_ack_pending_irq, hf, hv]
  · intro h
    have hcond : ¬(force_ack = false ∧ env.virtual_intr_delivery = true) := by
      rcases h with h | h <;> simp [h]
    refine ⟨?_, ?_, ?_, ?_, ?_⟩
    · simp [vlapic_ack_pending_irq, hcond]
    · by_cases hs : env.has_viridian_synic = false ∨
          env.auto_eoi_sint vector = false
      · simp [vlapic_ack_pending_irq, hcond, hs]
      · simp [vlapic_ack_pending_irq, hcond, hs]
    · intro hs
      simp [vlapic_ack_pending_irq, hcond, hs]
    · rintro ⟨h1, h2⟩
      have hs : ¬(env.has_viridian_synic = false ∨
          env.auto_eoi_sint vector = false) := by simp [h1, h2]
      simp [vlapic_ack_pending_irq, hcond, hs]
    · have hiff := findHighest_eq_neg_one_iff s.isr
      by_cases ha : env.has_viridian_apic_assist = true
      · by_cases ht : s.tmr vector = true
        · simp [vlapic_ack_pending_irq, hcond, ha, ht]
        · simp only [Bool.not_eq_true] at ht
          by_cases hisr : findHighest s.isr = -1
          · by_cases hv16 : 0x10 < vector
            · simp [vlapic_ack_pending_irq, hcond, ha, ht, hisr, hv16]
              exact Or.inr (hiff.mp hisr)
            · simp [vlapic_ack_pending_irq, hcond, ha, ht, hisr, hv16]
          · have hne : ¬(∀ v, v < 256 → s.isr v = false) := fun hh =>
              hisr (hiff.mpr hh)
            simp [vlapic_ack_pending_irq, hcond, ha, ht, hisr, hne]
      · simp only [Bool.not_eq_true] at ha
        simp [vlapic_ack_pending_irq, hcond, ha]

/-- Witness for C2 (amended): with acknowledgment forced, empty ISR and
vector 0x30, the ack marks the vector in service and sets the elision
flag. -/
theorem vlapic_ack_pending_irq_amended_witness :
    (vlapic_ack_pending_irq ackEnv0 emptyState false 0x30 true).1.isr =
      setVec emptyState.isr 0x30 ∧
    (vlapic_ack_pending_irq ackEnv0 emptyState false 0x30 true).2.1 = true :=
  ⟨((vlapic_ack_pending_irq_amended ackEnv0 emptyState false 0x30 true).2
      (Or.inl rfl)).2.2.1 (Or.inl rfl),
   ((vlapic_ack_pending_irq_amended ackEnv0 emptyState false 0x30 true).2
      (Or.inl rfl)).2.2.2.2.mpr (Or.inr ⟨rfl, rfl, by decide, by decide⟩)⟩

/-- Claim C6: logical destination matching — in xapic flat mode the target
matches exactly when its logical ID shares a bit with the low byte of the
destination; in xapic cluster mode exactly when the top nibbles agree and the
low nibbles share a bit; in x2apic mode exactly when the high 16-bit halves
agree and the low 16-bit halves share a bit; any other destination-format
value never matches. -/
theorem vlapic_match_logical_addr_spec (c : LogicalCfg) (mda : Nat) :
    (c.x2apic_mode = true →
      (vlapic_match_logical_addr c mda = true ↔
        c.ldr >>> 16 = mda >>> 16 ∧
        ∃ i, i < 16 ∧ c.ldr.testBit i = true ∧ mda.testBit i = true)) ∧
    (c.x2apic_mode = false →
      (c.dfr = APIC_DFR_FLAT →
        (vlapic_match_logical_addr c mda = true ↔
          ∃ i, i < 8 ∧ (GET_xAPIC_LOGICAL_ID c.ldr).testBit i = true ∧
            (mda &&& 0xff).testBit i = true)) ∧
      (c.dfr = APIC_DFR_CLUSTER →
        (vlapic_match_logical_addr c mda = true ↔
          GET_xAPIC_LOGICAL_ID c.ldr >>> 4 = (mda &&& 0xff) >>> 4 ∧
          ∃ i, i < 4 ∧ (GET_xAPIC_LOGICAL_ID c.ldr).testBit i = true ∧
            (mda &&& 0xff).testBit i = true)) ∧
      (c.dfr ≠ APIC_DFR_FLAT → c.dfr ≠ APIC_DFR_CLUSTER →
        vlapic_match_logical_addr c mda = false)) := by
  have hlid : GET_xAPIC_LOGICAL_ID c.ldr < 2 ^ 8 :=
    Nat.lt_of_le_of_lt Nat.and_le_right (by norm_num)
  constructor
  · intro hx2
    simp only [vlapic_match_logical_addr, hx2, if_true, Bool.and_eq_true,
      decide_eq_true_eq]
    refine and_congr_right fun _ => ?_
    rw [show (0xffff : Nat) = 2 ^ 16 - 1 by norm_num]
    exact land_mask_ne_zero_iff c.ldr mda 16
  · intro hx2
    refine ⟨?_, ?_, ?_⟩
    · intro hdfr
      simp only [vlapic_match_logical_addr, hx2, Bool.false_eq_true, if_false,
        hdfr, if_true, decide_eq_true_eq]
      have hlt : GET_xAPIC_LOGICAL_ID c.ldr &&& (mda &&& 0xff) < 2 ^ 8 :=
        Nat.lt_of_le_of_lt Nat.and_le_left hlid
      rw [← land_mask_of_lt _ 8 hlt]
      exact land_mask_ne_zero_iff (GET_xAPIC_LOGICAL_ID c.ldr) (mda &&& 0xff) 8
    · intro hdfr
      simp only [vlapic_match_logical_addr, hx2, Bool.false_eq_true, if_false,
        hdfr]
      rw [if_neg (by decide : ¬(APIC_DFR_CLUSTER = APIC_DFR_FLAT))]
      simp only [if_true, Bool.and_eq_true, decide_eq_true_eq]
      refine and_congr_right fun _ => ?_
      rw [show (0xf : Nat) = 2 ^ 4 - 1 by norm_num]
      exact land_mask_ne_zero_iff (GET_xAPIC_LOGICAL_ID c.ldr) (mda &&& 0xff) 4
    · intro h1 h2
      simp [vlapic_match_logical_addr, hx2, h1, h2]

/-- Witness for C6: a flat-mode controller with logical ID 0x01 matches
destination 0x01. -/
theorem vlapic_match_logical_addr_spec_witness :
    vlapic_match_logical_addr flatCfg 0x01 = true :=
  (((vlapic_match_logical_addr_spec flatCfg 0x01).2 rfl).1 rfl).mpr
    ⟨0, by decide, by decide, by decide⟩

end Vlapic
